import Mathlib

/-!
Shallow embedding of `src/Coffee.py`, a batch scraper that queries a search
API per place-type, fetches each organic result's linked page concurrently,
extracts a bounded text snippet, and exports the records to a spreadsheet.

External effects are modelled explicitly:
  * HTTP responses are values of `HttpResult` / `SearchOutcome` supplied by an
    environment `Env` (the network oracle);
  * BeautifulSoup's parse-and-join of stripped text nodes is an opaque
    function `soupText : String → String` carried by the environment
    (the spec treats HTML parsing as an opaque text-extraction function);
  * `datetime.now()` is a clock oracle `now : Nat → String` indexed by a
    record-creation counter;
  * `asyncio.gather` is modelled by slot filling driven by an arbitrary
    completion order (`fillSlots`), so completion-order independence is a
    provable statement rather than an assumption;
  * log emission is modelled by accumulating `LogEntry` values.
-/

namespace Coffee

/-- Log severities used by the program (`logging.info/warning/error`). -/
inductive LogLevel where
  | info
  | warning
  | error
deriving DecidableEq

/-- One emitted log line. -/
structure LogEntry where
  level : LogLevel
  msg : String
deriving DecidableEq

/-- Outcome of one HTTP GET for a target page: either the body text, or a
failure (network error, non-success status after `raise_for_status`, or
timeout), carrying the reason rendered into the log message. -/
inductive HttpResult where
  | ok (body : String)
  | err (reason : String)
deriving DecidableEq

/-- Python string slicing `s[:n]` for a nonnegative bound: the first `n`
characters of `s`. -/
def pySlice (s : String) (n : Nat) : String :=
  String.mk (s.data.take n)

/-- Embedding of `fetch_page` (src/Coffee.py lines 38-50): on success return
the body text and emit nothing; on any failure swallow the exception, emit a
warning naming the URL and the reason, and return the empty string.  The
function is total: no exception propagates to the caller. -/
def fetch_page (resp : HttpResult) (url : String) : String × List LogEntry :=
  match resp with
  | HttpResult.ok body => (body, [])
  | HttpResult.err e =>
      ("", [LogEntry.mk LogLevel.warning ("Failed to fetch URL " ++ url ++ ": " ++ e)])

/-- Embedding of `extract_details_from_html` (src/Coffee.py lines 56-65):
empty input yields the placeholder "N/A"; otherwise the BeautifulSoup
reduction (opaque `soupText`, modelling `" ".join(soup.stripped_strings)`)
is truncated to the first `char_limit` characters. -/
def extract_details_from_html (soupText : String → String) (html : String)
    (char_limit : Nat) : String :=
  if html = "" then "N/A"
  else pySlice (soupText html) char_limit

/-- Embedding of `extract_place_details` (src/Coffee.py lines 71-77): fetch
the page, then extract with the default character limit 600, forwarding any
warning the fetch emitted. -/
def extract_place_details (soupText : String → String) (resp : HttpResult)
    (link : String) : String × List LogEntry :=
  let fetched := fetch_page resp link
  (extract_details_from_html soupText fetched.1 600, fetched.2)

/-- Query parameters of the search API call (src/Coffee.py lines 95-100). -/
structure SearchParams where
  engine : String
  q : String
  num : Nat
  api_key : String
deriving DecidableEq

/-- One entry of the JSON response's `organic_results` list; the three
string fields are optional (`result.get(...)` with a default). -/
structure OrganicResult where
  title : Option String
  snippet : Option String
  link : Option String
deriving DecidableEq

/-- Outcome of one search API call: an HTTP/JSON failure (anything raised
inside the `try` before records are appended), or a parsed body whose
`organic_results` key may be absent (`none`). -/
inductive SearchOutcome where
  | failure (reason : String)
  | success (organic_results : Option (List OrganicResult))
deriving DecidableEq

/-- One row of `all_data` (the dict built at src/Coffee.py lines 115-123). -/
structure PlaceRecord where
  city : String
  placeType : String
  name : String
  description : String
  details : Option String
  link : String
  fetchedOn : String
deriving DecidableEq

/-- The external world of one run: the search API, the per-link page
fetches, the opaque BeautifulSoup text reduction, the clock (indexed by a
record-creation counter), and, for each place-type, the order in which that
batch's detail resolvers happen to complete. -/
structure Env where
  search : SearchParams → SearchOutcome
  fetchLink : String → HttpResult
  soupText : String → String
  now : Nat → String
  order : String → List Nat

/-- Accumulated state of `fetch_places_async`: the running `all_data` list,
the log stream, and the record-creation counter feeding the clock. -/
structure RunState where
  all_data : List PlaceRecord
  logs : List LogEntry
  tick : Nat

/-- The query string `f"{place} in {city}"`. -/
def queryOf (place city : String) : String :=
  place ++ " in " ++ city

/-- The parameter dict sent to the search endpoint: the per-query result
limit is passed through as `num` and used nowhere else. -/
def searchParamsFor (place city api_key : String) (limit : Nat) : SearchParams :=
  SearchParams.mk "google" (queryOf place city) limit api_key

/-- The record appended for one organic result (src/Coffee.py lines
108-123): title/snippet default to "N/A", link defaults to "", details
starts unresolved, timestamp reads the clock at creation. -/
def mkRecord (env : Env) (city place : String) (tick : Nat)
    (r : OrganicResult) : PlaceRecord :=
  PlaceRecord.mk city place (r.title.getD "N/A") (r.snippet.getD "N/A")
    none (r.link.getD "") (env.now tick)

/-- All records appended for one batch, in organic-result order, each
consuming one clock tick. -/
def batchRecords (env : Env) (city place : String) (tick : Nat)
    (org : List OrganicResult) : List PlaceRecord :=
  org.enum.map (fun p => mkRecord env city place (tick + p.1) p.2)

/-- The links handed to the detail-resolver tasks, in launch order: the same
`result.get("link", "")` value stored in each record. -/
def batchLinks (org : List OrganicResult) : List String :=
  org.map (fun r => r.link.getD "")

/-- One detail-resolver task (`extract_place_details(session, link)`),
resolving the page-fetch outcome through the environment. -/
def resolveDetail (env : Env) (link : String) : String × List LogEntry :=
  extract_place_details env.soupText (env.fetchLink link) link

/-- Model of `asyncio.gather`: each resolver writes its value into its own
slot (indexed by launch position) at the moment it completes; `order` is the
completion order.  Out-of-range completion indices are ignored by `set`. -/
def fillSlots (vals : List String) (order : List Nat) : List String :=
  order.foldl (fun acc i => acc.set i (vals.getD i "")) (List.replicate vals.length "")

/-- Warnings emitted by the resolvers, in completion order. -/
def gatherLogs (env : Env) (links : List String) (order : List Nat) : List LogEntry :=
  (order.map (fun i =>
    match links[i]? with
    | some l => (resolveDetail env l).2
    | none => [])).flatten

/-- Functional update of the record at one position, leaving the list
unchanged when the index is out of range (cannot happen in a run). -/
def setDetail : List PlaceRecord → Nat → String → List PlaceRecord
  | [], _, _ => []
  | r :: rs, 0, d => PlaceRecord.mk r.city r.placeType r.name r.description
      (some d) r.link r.fetchedOn :: rs
  | r :: rs, Nat.succ n, d => r :: setDetail rs n d

/-- One iteration of the merge loop: `all_data[-N + i]["Details"] = details`,
i.e. position `len(all_data) - N + i` counted from the front, with `N` the
number of gathered results. -/
def mergeStep (n : Nat) (acc : List PlaceRecord) (p : Nat × String) : List PlaceRecord :=
  setDetail acc (acc.length - n + p.1) p.2

/-- The merge loop of src/Coffee.py lines 129-130: for each `(i, details)`
in `enumerate(details_results)`, back-index the record appended `N - i`
positions from the end and set its `Details`. -/
def mergeDetails (all : List PlaceRecord) (details : List String) : List PlaceRecord :=
  details.enum.foldl (mergeStep details.length) all

/-- Embedding of one iteration of the place-type loop of
`fetch_places_async` (src/Coffee.py lines 91-136): log the query, call the
search API; on failure log an error and change nothing else; on success
append one record per organic result, launch one resolver per link, gather
by completion order, and merge the details back positionally. -/
def runBatch (env : Env) (city api_key : String) (limit : Nat)
    (st : RunState) (place : String) : RunState :=
  let logs0 := st.logs ++ [LogEntry.mk LogLevel.info ("Searching: " ++ queryOf place city)]
  match env.search (searchParamsFor place city api_key limit) with
  | SearchOutcome.failure e =>
      RunState.mk st.all_data
        (logs0 ++ [LogEntry.mk LogLevel.error
          ("Error fetching " ++ place ++ " in " ++ city ++ ": " ++ e)])
        st.tick
  | SearchOutcome.success orgOpt =>
      let org := orgOpt.getD []
      let recs := batchRecords env city place st.tick org
      let links := batchLinks org
      let vals := links.map (fun l => (resolveDetail env l).1)
      let details := fillSlots vals (env.order place)
      RunState.mk (mergeDetails (st.all_data ++ recs) details)
        (logs0 ++ gatherLogs env links (env.order place))
        (st.tick + org.length)

/-- Embedding of `fetch_places_async` (src/Coffee.py lines 83-138): fold the
batch runner over the place-types in submission order, starting from an
empty record list. -/
def fetch_places_async (env : Env) (city : String) (place_types : List String)
    (api_key : String) (limit : Nat) : RunState :=
  place_types.foldl (runBatch env city api_key limit) (RunState.mk [] [] 0)

/-- The appended batch after its details are merged in: record `i` paired
with detail `i`, positionally. -/
def applyDetails (recs : List PlaceRecord) (ds : List String) : List PlaceRecord :=
  (recs.zip ds).map (fun p => PlaceRecord.mk p.1.city p.1.placeType p.1.name
    p.1.description (some p.2) p.1.link p.1.fetchedOn)

/-- The spreadsheet content produced by pandas `DataFrame.to_excel`: a
header row (the dict keys, in insertion order) and one row per record. -/
structure ExcelFile where
  header : List String
  rows : List (List String)
deriving DecidableEq

/-- The seven column names, in the dict-insertion order of the source. -/
def excelColumns : List String :=
  ["City", "Place Type", "Name", "Description", "Details", "Link", "Fetched On"]

/-- One spreadsheet data row for a record (an unresolved detail would render
as an empty cell). -/
def rowOf (r : PlaceRecord) : List String :=
  [r.city, r.placeType, r.name, r.description, r.details.getD "", r.link, r.fetchedOn]

/-- Embedding of `save_to_excel` (src/Coffee.py lines 144-154): a non-empty
list is written as header plus one row per record and success is logged; an
empty list writes nothing and logs a warning. -/
def save_to_excel (records : List PlaceRecord) (file_name : String) :
    Option ExcelFile × List LogEntry :=
  if records.isEmpty then
    (none, [LogEntry.mk LogLevel.warning "⚠️ No data to save."])
  else
    (some (ExcelFile.mk excelColumns (records.map rowOf)),
     [LogEntry.mk LogLevel.info ("✅ Data saved successfully to " ++ file_name)])

/-- Concrete two-result search response used by the witnesses: one entry
with all fields, one with a missing snippet. -/
def orgW : List OrganicResult :=
  [OrganicResult.mk (some "A") (some "sa") (some "L1"),
   OrganicResult.mk (some "B") none (some "L2")]

/-- Concrete environment: the search succeeds with `orgW`, the first link
fetches, the second times out, and the resolvers complete in reversed
order. -/
def envW : Env :=
  Env.mk (fun _ => SearchOutcome.success (some orgW))
    (fun l => if l = "L1" then HttpResult.ok "hello" else HttpResult.err "timeout")
    (fun s => s)
    (fun t => Nat.repr t)
    (fun _ => [1, 0])

/-- The second record created under `envW` (index 1 of the batch). -/
def rW1 : PlaceRecord :=
  PlaceRecord.mk "Lahore" "coffee shops" "B" "N/A" none "L2" "1"

/-- Concrete environment whose search fails exactly for the query
"bars in Lahore" and succeeds otherwise. -/
def envF : Env :=
  Env.mk
    (fun ps => if ps.q = "bars in Lahore" then SearchOutcome.failure "500"
      else SearchOutcome.success (some orgW))
    (fun l => if l = "L1" then HttpResult.ok "hello" else HttpResult.err "timeout")
    (fun s => s)
    (fun t => Nat.repr t)
    (fun _ => [0, 1])

/-- Concrete three-result search response, exceeding the limit 1 used by the
C10 witness. -/
def orgW3 : List OrganicResult :=
  [OrganicResult.mk (some "A") none (some "L1"),
   OrganicResult.mk (some "B") none none,
   OrganicResult.mk none (some "s") (some "L2")]

/-- Concrete environment returning three organic results for every query. -/
def envW3 : Env :=
  Env.mk (fun _ => SearchOutcome.success (some orgW3))
    (fun _ => HttpResult.err "404")
    (fun s => s)
    (fun t => Nat.repr t)
    (fun _ => [0, 1, 2])

/-- Claim C3: for every URL, `fetch_page` either returns the full response
body on success, or on any failure (network error, non-success status,
timeout) returns the empty string together with a warning-level log entry
naming the URL and the reason; being a total function of the modelled
response, it never propagates an exception. -/
theorem fetch_page_never_raises (resp : HttpResult) (url : String) :
    (∀ body, resp = HttpResult.ok body → fetch_page resp url = (body, [])) ∧
    (∀ e, resp = HttpResult.err e →
      fetch_page resp url =
        ("", [LogEntry.mk LogLevel.warning
          ("Failed to fetch URL " ++ url ++ ": " ++ e)])) := by
  constructor
  · intro body h
    subst h
    rfl
  · intro e h
    subst h
    rfl

/-- Witness for C3 at a concrete failing fetch. -/
theorem fetch_page_never_raises_witness :
    fetch_page (HttpResult.err "timeout") "http://x" =
      ("", [LogEntry.mk LogLevel.warning
        ("Failed to fetch URL " ++ "http://x" ++ ": " ++ "timeout")]) :=
  (fetch_page_never_raises (HttpResult.err "timeout") "http://x").2 "timeout" rfl

/-- Claim C5: on every empty markup input, `extract_details_from_html`
returns the fixed placeholder "N/A", for any text reduction and any limit. -/
theorem extract_details_empty_na (soupText : String → String) (char_limit : Nat) :
    extract_details_from_html soupText "" char_limit = "N/A" := by
  simp [extract_details_from_html]

/-- Counterexample to claim C4 as stated: with the configured character
limit 2, the empty markup input makes `extract_details_from_html` return
"N/A", whose length 3 exceeds the limit. -/
theorem extract_details_limit_cex :
    ¬ ((extract_details_from_html (fun s => s) "" 2).length ≤ 2) := by
  decide

/-- Claim C4 (amended): for every markup input and every configured
character limit of at least 3 (in particular the default 600), the output
length of `extract_details_from_html` is at most the limit.  The original
claim fails only on the empty-input placeholder "N/A" when the limit is
below 3. -/
theorem extract_details_length_le (soupText : String → String) (html : String)
    (char_limit : Nat) (h : 3 ≤ char_limit) :
    (extract_details_from_html soupText html char_limit).length ≤ char_limit := by
  unfold extract_details_from_html
  split
  · exact h
  · show (String.mk ((soupText html).data.take char_limit)).length ≤ char_limit
    show ((soupText html).data.take char_limit).length ≤ char_limit
    rw [List.length_take]
    exact Nat.min_le_left _ _

/-- Witness for C4 (amended) at the default limit 600. -/
theorem extract_details_length_le_witness :
    (extract_details_from_html (fun s => s) "<p>Hello</p>" 600).length ≤ 600 :=
  extract_details_length_le (fun s => s) "<p>Hello</p>" 600 (by decide)

/-- Claim C6: for every link, `extract_place_details` is exactly the
composition of the page fetch and the text extraction (output forwarded
unchanged, default limit 600), and on every failed fetch the output is the
extractor's value on empty input, "N/A"; as a total function it has no
unhandled failure. -/
theorem extract_place_details_compose (soupText : String → String)
    (resp : HttpResult) (link : String) :
    (extract_place_details soupText resp link).1 =
      extract_details_from_html soupText (fetch_page resp link).1 600 ∧
    (∀ e, resp = HttpResult.err e →
      (extract_place_details soupText resp link).1 = "N/A") := by
  constructor
  · rfl
  · intro e h
    subst h
    simp [extract_place_details, fetch_page, extract_details_from_html]

/-- Witness for C6 at a concrete failed fetch. -/
theorem extract_place_details_compose_witness :
    (extract_place_details (fun s => s) (HttpResult.err "boom") "http://y").1 = "N/A" :=
  (extract_place_details_compose (fun s => s) (HttpResult.err "boom") "http://y").2
    "boom" rfl

theorem length_setDetail : ∀ (l : List PlaceRecord) (i : Nat) (d : String),
    (setDetail l i d).length = l.length
  | [], _, _ => rfl
  | _ :: _, 0, _ => rfl
  | r :: rs, Nat.succ n, d => by
      simp [setDetail, length_setDetail rs n d]

theorem setDetail_append (A : List PlaceRecord) :
    ∀ (rs : List PlaceRecord) (i : Nat) (d : String),
    setDetail (A ++ rs) (A.length + i) d = A ++ setDetail rs i d := by
  induction A with
  | nil =>
      intro rs i d
      simp
  | cons a A ih =>
      intro rs i d
      have hlen : (a :: A).length + i = Nat.succ (A.length + i) := by
        simp [List.length_cons]
        omega
      rw [List.cons_append, hlen]
      show a :: setDetail (A ++ rs) (A.length + i) d = (a :: A) ++ setDetail rs i d
      rw [ih]
      rfl

theorem mergeDetails_go :
    ∀ (ds : List String) (k : Nat) (A recs : List PlaceRecord),
    recs.length = ds.length → k ≤ A.length →
    (List.enumFrom k ds).foldl (mergeStep (k + ds.length)) (A ++ recs)
      = A ++ applyDetails recs ds := by
  intro ds
  induction ds with
  | nil =>
      intro k A recs hlen hk
      have hrecs : recs = [] := List.length_eq_zero.mp hlen
      subst hrecs
      simp [applyDetails]
  | cons d ds ih =>
      intro k A recs hlen hk
      cases recs with
      | nil =>
          exact absurd hlen (by simp)
      | cons r recs =>
          have hlen' : recs.length = ds.length := by
            simpa using hlen
          show List.foldl (mergeStep (k + (d :: ds).length))
              (mergeStep (k + (d :: ds).length) (A ++ r :: recs) (k, d))
              (List.enumFrom (k + 1) ds) = _
          have hidx : (A ++ r :: recs).length - (k + (d :: ds).length) + k
              = A.length + 0 := by
            simp [List.length_append, List.length_cons, hlen']
            omega
          have hstep : mergeStep (k + (d :: ds).length) (A ++ r :: recs) (k, d)
              = A ++ (PlaceRecord.mk r.city r.placeType r.name r.description
                  (some d) r.link r.fetchedOn :: recs) := by
            unfold mergeStep
            rw [hidx, setDetail_append]
            rfl
          rw [hstep]
          rw [List.append_cons A _ recs]
          have hn : k + (d :: ds).length = (k + 1) + ds.length := by
            simp [List.length_cons]
            omega
          have hk' : k + 1 ≤ (A ++ [PlaceRecord.mk r.city r.placeType r.name
              r.description (some d) r.link r.fetchedOn]).length := by
            simp [List.length_append]
            omega
          rw [hn]
          rw [ih (k + 1) _ recs hlen' hk']
          simp [applyDetails]

theorem mergeDetails_append (A recs : List PlaceRecord) (ds : List String)
    (h : recs.length = ds.length) :
    mergeDetails (A ++ recs) ds = A ++ applyDetails recs ds := by
  have hgo := mergeDetails_go ds 0 A recs h (Nat.zero_le _)
  simpa [mergeDetails, List.enum_eq_enumFrom] using hgo

theorem length_foldl_set (vals : List String) :
    ∀ (order : List Nat) (init : List String),
    (order.foldl (fun acc i => acc.set i (vals.getD i "")) init).length
      = init.length := by
  intro order
  induction order with
  | nil => intro init; rfl
  | cons i order ih =>
      intro init
      rw [List.foldl_cons, ih, List.length_set]

theorem getElem?_foldl_set (vals : List String) :
    ∀ (order : List Nat) (init : List String) (j : Nat),
    (order.foldl (fun acc i => acc.set i (vals.getD i "")) init)[j]? =
      if j ∈ order ∧ j < init.length then some (vals.getD j "") else init[j]? := by
  intro order
  induction order with
  | nil =>
      intro init j
      simp
  | cons i order ih =>
      intro init j
      rw [List.foldl_cons, ih, List.length_set]
      by_cases h1 : j ∈ order ∧ j < init.length
      · rw [if_pos h1, if_pos ⟨List.mem_cons_of_mem i h1.1, h1.2⟩]
      · rw [if_neg h1, List.getElem?_set]
        by_cases hij : i = j
        · subst hij
          by_cases hlt : i < init.length
          · rw [if_pos rfl, if_pos hlt, if_pos ⟨List.mem_cons_self i order, hlt⟩]
          · rw [if_pos rfl, if_neg hlt,
              if_neg (fun hc => hlt hc.2)]
            exact (List.getElem?_eq_none (Nat.le_of_not_lt hlt)).symm
        · rw [if_neg hij]
          have hnc : ¬ (j ∈ i :: order ∧ j < init.length) := by
            intro hc
            rcases List.mem_cons.mp hc.1 with hji | hjo
            · exact hij hji.symm
            · exact h1 ⟨hjo, hc.2⟩
          rw [if_neg hnc]

theorem length_fillSlots (vals : List String) (order : List Nat) :
    (fillSlots vals order).length = vals.length := by
  unfold fillSlots
  rw [length_foldl_set, List.length_replicate]

theorem fillSlots_eq_of_perm (vals : List String) (order : List Nat)
    (h : order.Perm (List.range vals.length)) :
    fillSlots vals order = vals := by
  apply List.ext_getElem?
  intro j
  unfold fillSlots
  rw [getElem?_foldl_set, List.length_replicate]
  by_cases hj : j < vals.length
  · have hmem : j ∈ order := (h.mem_iff).mpr (List.mem_range.mpr hj)
    rw [if_pos ⟨hmem, hj⟩, List.getElem?_eq_getElem hj]
    rw [List.getD_eq_getElem?_getD, List.getElem?_eq_getElem hj]
    rfl
  · rw [if_neg (fun hc => hj hc.2), List.getElem?_replicate, if_neg hj]
    exact (List.getElem?_eq_none (Nat.le_of_not_lt hj)).symm

theorem length_batchRecords (env : Env) (city place : String) (tick : Nat)
    (org : List OrganicResult) :
    (batchRecords env city place tick org).length = org.length := by
  simp [batchRecords]

theorem length_batchLinks (org : List OrganicResult) :
    (batchLinks org).length = org.length := by
  simp [batchLinks]

theorem length_applyDetails (recs : List PlaceRecord) (ds : List String) :
    (applyDetails recs ds).length = min recs.length ds.length := by
  simp [applyDetails]

theorem batchDetails_length (env : Env) (place : String)
    (org : List OrganicResult) :
    (fillSlots ((batchLinks org).map (fun l => (resolveDetail env l).1))
      (env.order place)).length = org.length := by
  rw [length_fillSlots, List.length_map, length_batchLinks]

theorem runBatch_success_eq (env : Env) (city api_key place : String)
    (limit : Nat) (st : RunState) (orgOpt : Option (List OrganicResult))
    (hs : env.search (searchParamsFor place city api_key limit)
      = SearchOutcome.success orgOpt) :
    runBatch env city api_key limit st place =
      RunState.mk
        (st.all_data ++ applyDetails
          (batchRecords env city place st.tick (orgOpt.getD []))
          (fillSlots ((batchLinks (orgOpt.getD [])).map
              (fun l => (resolveDetail env l).1))
            (env.order place)))
        (st.logs ++ [LogEntry.mk LogLevel.info ("Searching: " ++ queryOf place city)]
          ++ gatherLogs env (batchLinks (orgOpt.getD [])) (env.order place))
        (st.tick + (orgOpt.getD []).length) := by
  have hlen : (batchRecords env city place st.tick (orgOpt.getD [])).length
      = (fillSlots ((batchLinks (orgOpt.getD [])).map
          (fun l => (resolveDetail env l).1)) (env.order place)).length := by
    rw [length_batchRecords, batchDetails_length]
  unfold runBatch
  rw [hs]
  show RunState.mk (mergeDetails _ _) _ _ = _
  rw [mergeDetails_append _ _ _ hlen]

theorem runBatch_failure_eq (env : Env) (city api_key place e : String)
    (limit : Nat) (st : RunState)
    (hs : env.search (searchParamsFor place city api_key limit)
      = SearchOutcome.failure e) :
    runBatch env city api_key limit st place =
      RunState.mk st.all_data
        (st.logs ++ [LogEntry.mk LogLevel.info ("Searching: " ++ queryOf place city)]
          ++ [LogEntry.mk LogLevel.error
            ("Error fetching " ++ place ++ " in " ++ city ++ ": " ++ e)])
        st.tick := by
  unfold runBatch
  rw [hs]

theorem batchRecords_getElem? (env : Env) (city place : String) (tick : Nat)
    (org : List OrganicResult) (i : Nat) :
    (batchRecords env city place tick org)[i]?
      = (org[i]?).map (fun x => mkRecord env city place (tick + i) x) := by
  simp [batchRecords, List.getElem?_enum]
  cases org[i]? with
  | none => rfl
  | some x => rfl

theorem batchLinks_getElem? (org : List OrganicResult) (i : Nat) :
    (batchLinks org)[i]? = (org[i]?).map (fun x => x.link.getD "") := by
  simp [batchLinks]

theorem applyDetails_getElem? :
    ∀ (recs : List PlaceRecord) (ds : List String) (i : Nat) (r : PlaceRecord)
      (d : String), recs[i]? = some r → ds[i]? = some d →
    (applyDetails recs ds)[i]? = some (PlaceRecord.mk r.city r.placeType r.name
      r.description (some d) r.link r.fetchedOn)
  | [], _, i, r, d, hr, _ => by simp at hr
  | _ :: _, [], i, r, d, _, hd => by simp at hd
  | r0 :: recs, d0 :: ds, 0, r, d, hr, hd => by
      simp only [List.getElem?_cons_zero, Option.some.injEq] at hr hd
      subst hr
      subst hd
      have hcons : applyDetails (r0 :: recs) (d0 :: ds)
          = PlaceRecord.mk r0.city r0.placeType r0.name r0.description
              (some d0) r0.link r0.fetchedOn :: applyDetails recs ds := rfl
      rw [hcons, List.getElem?_cons_zero]
  | r0 :: recs, d0 :: ds, Nat.succ i, r, d, hr, hd => by
      simp only [List.getElem?_cons_succ] at hr hd
      have hrec := applyDetails_getElem? recs ds i r d hr hd
      show (applyDetails (r0 :: recs) (d0 :: ds))[i + 1]? = _
      have hcons : applyDetails (r0 :: recs) (d0 :: ds)
          = PlaceRecord.mk r0.city r0.placeType r0.name r0.description
              (some d0) r0.link r0.fetchedOn :: applyDetails recs ds := rfl
      rw [hcons, List.getElem?_cons_succ, hrec]

theorem runBatch_core (env : Env) (city api_key : String) (limit : Nat)
    (st₁ st₂ : RunState) (place : String)
    (h1 : st₁.all_data = st₂.all_data) (h2 : st₁.tick = st₂.tick) :
    (runBatch env city api_key limit st₁ place).all_data
      = (runBatch env city api_key limit st₂ place).all_data ∧
    (runBatch env city api_key limit st₁ place).tick
      = (runBatch env city api_key limit st₂ place).tick := by
  cases henv : env.search (searchParamsFor place city api_key limit) with
  | failure e =>
      rw [runBatch_failure_eq env city api_key place e limit st₁ henv,
        runBatch_failure_eq env city api_key place e limit st₂ henv]
      exact ⟨h1, h2⟩
  | success orgOpt =>
      rw [runBatch_success_eq env city api_key place limit st₁ orgOpt henv,
        runBatch_success_eq env city api_key place limit st₂ orgOpt henv]
      exact ⟨by rw [h1, h2], by rw [h2]⟩

theorem foldl_runBatch_core (env : Env) (city api_key : String) (limit : Nat) :
    ∀ (pts : List String) (st₁ st₂ : RunState),
    st₁.all_data = st₂.all_data → st₁.tick = st₂.tick →
    (pts.foldl (runBatch env city api_key limit) st₁).all_data
      = (pts.foldl (runBatch env city api_key limit) st₂).all_data ∧
    (pts.foldl (runBatch env city api_key limit) st₁).tick
      = (pts.foldl (runBatch env city api_key limit) st₂).tick := by
  intro pts
  induction pts with
  | nil =>
      intro st₁ st₂ h1 h2
      exact ⟨h1, h2⟩
  | cons p pts ih =>
      intro st₁ st₂ h1 h2
      rw [List.foldl_cons, List.foldl_cons]
      have hc := runBatch_core env city api_key limit st₁ st₂ p h1 h2
      exact ih _ _ hc.1 hc.2

/-- Claim C1: for every query batch whose search response contains `N`
organic result entries, `fetch_places_async`'s batch runner appends exactly
`N` records, and after awaiting all resolvers the detail resolved for the
i-th launched resolver (the i-th entry's link) is stored in the i-th record
appended in that batch, for every i < N — for every completion order of the
resolvers (any permutation of the launch indices). -/
theorem runBatch_positional_merge (env : Env) (city api_key place : String)
    (limit : Nat) (st : RunState) (org : List OrganicResult)
    (hs : env.search (searchParamsFor place city api_key limit)
      = SearchOutcome.success (some org))
    (hp : (env.order place).Perm (List.range org.length)) :
    (runBatch env city api_key limit st place).all_data
      = st.all_data ++ applyDetails (batchRecords env city place st.tick org)
          ((batchLinks org).map (fun l => (resolveDetail env l).1)) ∧
    (runBatch env city api_key limit st place).all_data.length
      = st.all_data.length + org.length ∧
    (∀ (i : Nat) (r : PlaceRecord),
      (batchRecords env city place st.tick org)[i]? = some r →
      (runBatch env city api_key limit st place).all_data[st.all_data.length + i]?
        = some (PlaceRecord.mk r.city r.placeType r.name r.description
            (some ((resolveDetail env r.link).1)) r.link r.fetchedOn)) := by
  have hvals : ((batchLinks org).map (fun l => (resolveDetail env l).1)).length
      = org.length := by
    rw [List.length_map, length_batchLinks]
  have hfill : fillSlots ((batchLinks org).map (fun l => (resolveDetail env l).1))
      (env.order place)
      = (batchLinks org).map (fun l => (resolveDetail env l).1) := by
    apply fillSlots_eq_of_perm
    rw [hvals]
    exact hp
  have hmain : (runBatch env city api_key limit st place).all_data
      = st.all_data ++ applyDetails (batchRecords env city place st.tick org)
          ((batchLinks org).map (fun l => (resolveDetail env l).1)) := by
    rw [runBatch_success_eq env city api_key place limit st (some org) hs]
    show st.all_data ++ applyDetails _ _ = _
    simp only [Option.getD_some]
    rw [hfill]
  refine ⟨hmain, ?_, ?_⟩
  · rw [hmain, List.length_append, length_applyDetails, length_batchRecords,
      hvals, Nat.min_self]
  · intro i r hr
    have hx := hr
    rw [batchRecords_getElem?] at hx
    rcases Option.map_eq_some'.mp hx with ⟨x, hox, hxr⟩
    have hlink : (batchLinks org)[i]? = some r.link := by
      rw [batchLinks_getElem?, hox]
      subst hxr
      rfl
    have hd : ((batchLinks org).map (fun l => (resolveDetail env l).1))[i]?
        = some ((resolveDetail env r.link).1) := by
      rw [List.getElem?_map, hlink]
      rfl
    rw [hmain, List.getElem?_append_right (Nat.le_add_right _ _),
      Nat.add_sub_cancel_left]
    exact applyDetails_getElem? _ _ i r _ hr hd

/-- Claim C2: a batch whose search API call fails contributes an error log,
leaves the accumulated record list (and the record-creation counter) exactly
as before the batch, and the remaining place-types produce exactly the
records they would produce had the failing place-type been absent. -/
theorem failed_query_isolation (env : Env) (city api_key p e : String)
    (limit : Nat) (pts1 pts2 : List String)
    (hf : env.search (searchParamsFor p city api_key limit)
      = SearchOutcome.failure e) :
    (∀ st : RunState,
      (runBatch env city api_key limit st p).all_data = st.all_data ∧
      (runBatch env city api_key limit st p).tick = st.tick ∧
      LogEntry.mk LogLevel.error
          ("Error fetching " ++ p ++ " in " ++ city ++ ": " ++ e)
        ∈ (runBatch env city api_key limit st p).logs) ∧
    (fetch_places_async env city (pts1 ++ p :: pts2) api_key limit).all_data
      = (fetch_places_async env city (pts1 ++ pts2) api_key limit).all_data := by
  constructor
  · intro st
    rw [runBatch_failure_eq env city api_key p e limit st hf]
    refine ⟨rfl, rfl, ?_⟩
    simp
  · unfold fetch_places_async
    rw [List.foldl_append, List.foldl_append, List.foldl_cons]
    have hst := runBatch_failure_eq env city api_key p e limit
      (pts1.foldl (runBatch env city api_key limit) (RunState.mk [] [] 0)) hf
    exact (foldl_runBatch_core env city api_key limit pts2 _ _
      (by rw [hst]) (by rw [hst])).1

/-- Claim C7: each organic result of a successful search yields a record
whose name is the entry's title or "N/A", description the entry's snippet or
"N/A", link the entry's link or "", detail initially unresolved (`none`),
timestamp read from the clock at record creation (base tick plus position),
and whose city and place-type are those of the enclosing query. -/
theorem record_fields_spec (env : Env) (city place : String) (tick : Nat)
    (org : List OrganicResult) (i : Nat) (x : OrganicResult)
    (hx : org[i]? = some x) :
    (batchRecords env city place tick org)[i]?
      = some (PlaceRecord.mk city place (x.title.getD "N/A")
          (x.snippet.getD "N/A") none (x.link.getD "")
          (env.now (tick + i))) := by
  rw [batchRecords_getElem?, hx]
  rfl

/-- Claim C9: a record's detail transitions exactly once — every record is
created with `details = none`; each batch only appends records, all of whose
details have been set by the positional merge, and never touches records of
earlier batches; hence when `fetch_places_async` returns, every record's
detail has been set. -/
theorem detail_set_once (env : Env) (city api_key : String) (limit : Nat) :
    (∀ (place : String) (tick : Nat) (org : List OrganicResult),
      ∀ r ∈ batchRecords env city place tick org, r.details = none) ∧
    (∀ (st : RunState) (place : String), ∃ appended,
      (runBatch env city api_key limit st place).all_data
        = st.all_data ++ appended ∧
      ∀ r ∈ appended, r.details ≠ none) ∧
    (∀ (place_types : List String),
      ∀ r ∈ (fetch_places_async env city place_types api_key limit).all_data,
        r.details ≠ none) := by
  have h1 : ∀ (place : String) (tick : Nat) (org : List OrganicResult),
      ∀ r ∈ batchRecords env city place tick org, r.details = none := by
    intro place tick org r hr
    rcases List.mem_map.mp hr with ⟨p, _, hpr⟩
    rw [← hpr]
    rfl
  have h2 : ∀ (st : RunState) (place : String), ∃ appended,
      (runBatch env city api_key limit st place).all_data
        = st.all_data ++ appended ∧
      ∀ r ∈ appended, r.details ≠ none := by
    intro st place
    cases henv : env.search (searchParamsFor place city api_key limit) with
    | failure e =>
        refine ⟨[], ?_, by intro r hr; simp at hr⟩
        rw [runBatch_failure_eq env city api_key place e limit st henv]
        simp
    | success orgOpt =>
        refine ⟨applyDetails (batchRecords env city place st.tick (orgOpt.getD []))
          (fillSlots ((batchLinks (orgOpt.getD [])).map
            (fun l => (resolveDetail env l).1)) (env.order place)), ?_, ?_⟩
        · rw [runBatch_success_eq env city api_key place limit st orgOpt henv]
        · intro r hr
          rcases List.mem_map.mp hr with ⟨p, _, hpr⟩
          rw [← hpr]
          simp
  refine ⟨h1, h2, ?_⟩
  intro place_types
  unfold fetch_places_async
  have hgen : ∀ (pts : List String) (st : RunState),
      (∀ r ∈ st.all_data, r.details ≠ none) →
      ∀ r ∈ (pts.foldl (runBatch env city api_key limit) st).all_data,
        r.details ≠ none := by
    intro pts
    induction pts with
    | nil =>
        intro st h
        simpa using h
    | cons p pts ih =>
        intro st h
        rw [List.foldl_cons]
        apply ih
        intro r hr
        rcases h2 st p with ⟨ap, hap, hmem⟩
        rw [hap] at hr
        rcases List.mem_append.mp hr with h' | h'
        · exact h _ h'
        · exact hmem _ h'
  exact hgen place_types (RunState.mk [] [] 0) (by intro r hr; simp at hr)

/-- Claim C10: the per-query result limit is only passed through to the
search API as the `num` parameter and is never enforced locally — a
successful response with `M` organic entries yields exactly `M` records even
when `M` exceeds the limit, and an absent (or empty) `organic_results` list
yields zero records. -/
theorem limit_not_enforced_locally (env : Env) (city api_key place : String)
    (limit : Nat) (st : RunState) :
    (searchParamsFor place city api_key limit).num = limit ∧
    (∀ org : List OrganicResult,
      env.search (searchParamsFor place city api_key limit)
          = SearchOutcome.success (some org) →
      (runBatch env city api_key limit st place).all_data.length
        = st.all_data.length + org.length) ∧
    (env.search (searchParamsFor place city api_key limit)
        = SearchOutcome.success none →
      (runBatch env city api_key limit st place).all_data.length
        = st.all_data.length) := by
  refine ⟨rfl, ?_, ?_⟩
  · intro org hs
    rw [runBatch_success_eq env city api_key place limit st (some org) hs]
    show (st.all_data ++ applyDetails _ _).length = _
    rw [List.length_append, length_applyDetails, length_batchRecords,
      batchDetails_length, Nat.min_self]
    rfl
  · intro hs
    rw [runBatch_success_eq env city api_key place limit st none hs]
    show (st.all_data ++ applyDetails _ _).length = _
    rw [List.length_append, length_applyDetails, length_batchRecords,
      batchDetails_length]
    rfl

/-- Claim C8: `save_to_excel` writes nothing and logs a warning on an empty
record list; on a non-empty list it writes a file whose header row is the
seven column names and whose data rows are exactly one row of seven cells
per record, and logs success. -/
theorem save_to_excel_spec (records : List PlaceRecord) (file_name : String) :
    save_to_excel records file_name =
      (if records.isEmpty then
        (none, [LogEntry.mk LogLevel.warning "⚠️ No data to save."])
      else
        (some (ExcelFile.mk
            ["City", "Place Type", "Name", "Description", "Details", "Link",
              "Fetched On"]
            (records.map rowOf)),
          [LogEntry.mk LogLevel.info
            ("✅ Data saved successfully to " ++ file_name)])) ∧
    (records.map rowOf).length = records.length ∧
    (∀ r : PlaceRecord, (rowOf r).length = 7) := by
  refine ⟨rfl, by rw [List.length_map], fun r => rfl⟩

/-- Witness for C1: under `envW` (resolvers completing in reversed order)
the batch has exactly two records and record 1 carries the detail resolved
for link "L2". -/
theorem runBatch_positional_merge_witness :
    (runBatch envW "Lahore" "k" 5 (RunState.mk [] [] 0)
        "coffee shops").all_data.length
      = (RunState.mk [] [] 0).all_data.length + orgW.length ∧
    (runBatch envW "Lahore" "k" 5 (RunState.mk [] [] 0)
        "coffee shops").all_data[(RunState.mk [] [] 0).all_data.length + 1]?
      = some (PlaceRecord.mk rW1.city rW1.placeType rW1.name rW1.description
          (some ((resolveDetail envW rW1.link).1)) rW1.link rW1.fetchedOn) :=
  ⟨(runBatch_positional_merge envW "Lahore" "k" "coffee shops" 5
      (RunState.mk [] [] 0) orgW rfl (by decide)).2.1,
   (runBatch_positional_merge envW "Lahore" "k" "coffee shops" 5
      (RunState.mk [] [] 0) orgW rfl (by decide)).2.2 1 rW1 (by decide)⟩

/-- Witness for C2: the failing place-type "bars" logs an error and the run
over ["bars", "coffee shops"] accumulates exactly the records of the run
over ["coffee shops"]. -/
theorem failed_query_isolation_witness :
    LogEntry.mk LogLevel.error
        ("Error fetching " ++ "bars" ++ " in " ++ "Lahore" ++ ": " ++ "500")
      ∈ (runBatch envF "Lahore" "k" 5 (RunState.mk [] [] 0) "bars").logs ∧
    (fetch_places_async envF "Lahore" ([] ++ "bars" :: ["coffee shops"])
        "k" 5).all_data
      = (fetch_places_async envF "Lahore" ([] ++ ["coffee shops"])
          "k" 5).all_data :=
  ⟨((failed_query_isolation envF "Lahore" "k" "bars" "500" 5 [] ["coffee shops"]
      (by decide)).1 (RunState.mk [] [] 0)).2.2,
   (failed_query_isolation envF "Lahore" "k" "bars" "500" 5 [] ["coffee shops"]
      (by decide)).2⟩

/-- Witness for C7 at the first entry of `orgW`. -/
theorem record_fields_spec_witness :
    (batchRecords envW "Lahore" "coffee shops" 0 orgW)[0]?
      = some (PlaceRecord.mk "Lahore" "coffee shops"
          ((some "A").getD "N/A") ((some "sa").getD "N/A") none
          ((some "L1").getD "") (envW.now (0 + 0))) :=
  record_fields_spec envW "Lahore" "coffee shops" 0 orgW 0
    (OrganicResult.mk (some "A") (some "sa") (some "L1")) (by decide)

/-- Witness for C9: the first record of a completed concrete run has its
detail set. -/
theorem detail_set_once_witness :
    ((fetch_places_async envW "Lahore" ["coffee shops"] "k" 5).all_data.getD 0
        (PlaceRecord.mk "" "" "" "" none "" "")).details ≠ none :=
  (detail_set_once envW "Lahore" "k" 5).2.2 ["coffee shops"] _ (by decide)

/-- Witness for C10: with the limit configured to 1 but three organic
results returned, the batch appends three records. -/
theorem limit_not_enforced_locally_witness :
    (runBatch envW3 "Lahore" "k" 1 (RunState.mk [] [] 0)
        "coffee shops").all_data.length
      = (RunState.mk [] [] 0).all_data.length + orgW3.length :=
  (limit_not_enforced_locally envW3 "Lahore" "k" "coffee shops" 1
    (RunState.mk [] [] 0)).2.1 orgW3 rfl

end Coffee
